import Mathlib

/-!
Verification development for the grpc-resilient client library.

The definitions below are a shallow embedding, in Lean, of the TypeScript
sources of the repository:

* `src/CallExecutor.ts` (error classifier, retry predicates),
* `src/MetricsTracker.ts` (the metrics accumulator),
* `src/utils.ts` (cache-key derivation and the `ResilientGrpcClient.call`
  retry loop),
* `src/ConnectionManager.ts` (the connection state machine and the
  `FallbackCache`).

Machine numbers are modelled as `Nat`/`Int`/`Rat` with explicit wrap where the
source relies on 32-bit arithmetic.  Asynchronous code is modelled as atomic
segments between suspension points, driven by explicit outcome parameters
(which transport call succeeded or failed, which jitter was drawn).
-/

namespace GrpcResilient

/-! ### Error model and classifier (src/CallExecutor.ts)

A wire error carries a numeric gRPC status code; errors raised locally with
`new Error(...)` have no `code` property, modelled as `none`. -/

/-- Model of the JS `Error` objects travelling through the retry loop: an
optional numeric gRPC status `code` and a `message`. -/
structure GrpcError where
  code : Option Nat
  message : String
deriving DecidableEq, Repr

/-- grpc.status.DEADLINE_EXCEEDED -/
def statusDeadlineExceeded : Nat := 4
/-- grpc.status.RESOURCE_EXHAUSTED -/
def statusResourceExhausted : Nat := 8
/-- grpc.status.ABORTED -/
def statusAborted : Nat := 10
/-- grpc.status.UNAVAILABLE -/
def statusUnavailable : Nat := 14

/-- Model of `isRetryableError` (src/CallExecutor.ts): the code is a member of
the retryable list; a JS `undefined` code is never a member. -/
def isRetryableError (e : GrpcError) : Bool :=
  match e.code with
  | some c =>
      c = statusUnavailable ∨ c = statusDeadlineExceeded ∨
      c = statusResourceExhausted ∨ c = statusAborted
  | none => false

/-- Model of `isConnectionError` (src/CallExecutor.ts): code UNAVAILABLE. -/
def isConnectionError (e : GrpcError) : Bool :=
  match e.code with
  | some c => c = statusUnavailable
  | none => false

/-! ### Metrics accumulator (src/MetricsTracker.ts)

`minLatencyMs` uses the `Infinity` sentinel in the source, modelled as `none`.
The dirty-flag snapshot cache only controls object identity of snapshots, not
their values, so the model returns the snapshot recomputed from the fields.
Timestamps (`lastResetAt`) are not referenced by any claim and are omitted. -/

/-- JS `Math.round (a / b)` for natural `a` and positive natural `b`
(floor of the quotient plus one half, halves rounding up). -/
def jsRound (a b : Nat) : Nat := (2 * a + b) / (2 * b)

/-- Mutable counter state of `MetricsTracker`. -/
structure Metrics where
  totalCalls : Nat
  successfulCalls : Nat
  failedCalls : Nat
  totalRetries : Nat
  circuitBreakerTrips : Nat
  cacheHits : Nat
  cacheMisses : Nat
  avgLatencyMs : Nat
  maxLatencyMs : Nat
  minLatencyMs : Option Nat
  latencySum : Nat
deriving DecidableEq, Repr

/-- Fresh `MetricsTracker` state (all counters zero, min at the sentinel). -/
def initMetrics : Metrics :=
  ⟨0, 0, 0, 0, 0, 0, 0, 0, 0, none, 0⟩

/-- Model of `MetricsTracker.recordCallStart`. -/
def recordCallStart (m : Metrics) : Metrics :=
  { m with totalCalls := m.totalCalls + 1 }

/-- Model of the private `MetricsTracker.updateLatency`: accumulate the sum,
track min and max, recompute the rounded average over successful calls. -/
def updateLatency (latencyMs : Nat) (m : Metrics) : Metrics :=
  let sum := m.latencySum + latencyMs
  { m with
    latencySum := sum
    maxLatencyMs := if latencyMs > m.maxLatencyMs then latencyMs else m.maxLatencyMs
    minLatencyMs :=
      match m.minLatencyMs with
      | none => some latencyMs
      | some x => if latencyMs < x then some latencyMs else some x
    avgLatencyMs := jsRound sum m.successfulCalls }

/-- Model of `MetricsTracker.recordSuccess`: bump the counter, then update the
latency aggregates (the source increments `successfulCalls` before dividing). -/
def recordSuccess (latencyMs : Nat) (m : Metrics) : Metrics :=
  updateLatency latencyMs { m with successfulCalls := m.successfulCalls + 1 }

/-- Model of `MetricsTracker.recordFailure`. -/
def recordFailure (m : Metrics) : Metrics :=
  { m with failedCalls := m.failedCalls + 1 }

/-- Model of `MetricsTracker.recordRetry`. -/
def recordRetry (m : Metrics) : Metrics :=
  { m with totalRetries := m.totalRetries + 1 }

/-- Model of `MetricsTracker.recordCacheHit`. -/
def recordCacheHit (m : Metrics) : Metrics :=
  { m with cacheHits := m.cacheHits + 1 }

/-- Model of `MetricsTracker.recordCacheMiss`. -/
def recordCacheMiss (m : Metrics) : Metrics :=
  { m with cacheMisses := m.cacheMisses + 1 }

/-- Immutable snapshot returned by `MetricsTracker.getMetrics`. -/
structure ClientMetrics where
  totalCalls : Nat
  successfulCalls : Nat
  failedCalls : Nat
  totalRetries : Nat
  circuitBreakerTrips : Nat
  cacheHits : Nat
  cacheMisses : Nat
  avgLatencyMs : Nat
  maxLatencyMs : Nat
  minLatencyMs : Nat
deriving DecidableEq, Repr

/-- Model of `MetricsTracker.getMetrics`: the snapshot of the counters, with
the `Infinity` min-latency sentinel reported as 0. -/
def getMetrics (m : Metrics) : ClientMetrics :=
  { totalCalls := m.totalCalls
    successfulCalls := m.successfulCalls
    failedCalls := m.failedCalls
    totalRetries := m.totalRetries
    circuitBreakerTrips := m.circuitBreakerTrips
    cacheHits := m.cacheHits
    cacheMisses := m.cacheMisses
    avgLatencyMs := m.avgLatencyMs
    maxLatencyMs := m.maxLatencyMs
    minLatencyMs := m.minLatencyMs.getD 0 }

/-! ### Cache-key derivation (src/utils.ts)

`generateCacheKey` inspects the request value by JS dynamic type.  The model
covers the request shapes the library distinguishes: `null`/`undefined`,
string/number/boolean primitives, non-representable values (rendered by their
`typeof` tag), and flat objects whose field values are primitives.  JS numbers
are modelled as `Int` (every claim uses integer values).  JS `.sort()` and the
Lean `String` order both compare strings lexicographically; they agree on all
strings without surrogate pairs, which covers every input in the claims. -/

/-- Primitive JS values that can appear as fields of a simple request object
(the values accepted by the `isSimple` test in `generateCacheKey`). -/
inductive Prim where
  | nullV
  | undefinedV
  | str (s : String)
  | num (n : Int)
  | boolV (b : Bool)
deriving DecidableEq, Repr

/-- JS `String(v)` for a primitive value. -/
def primString : Prim → String
  | .nullV => "null"
  | .undefinedV => "undefined"
  | .str s => s
  | .num n => toString n
  | .boolV true => "true"
  | .boolV false => "false"

/-- Request values passed to `generateCacheKey`: the dynamic shapes that the
function branches on.  `obj` is a flat object given as its insertion-ordered
field list; `other` stands for a symbol/bigint/function with its `typeof`
tag. -/
inductive JsValue where
  | nullV
  | undefinedV
  | str (s : String)
  | num (n : Int)
  | boolV (b : Bool)
  | obj (fields : List (String × Prim))
  | other (typeTag : String)
deriving DecidableEq, Repr

/-- Lowercase hexadecimal rendering of a natural number, as produced by the JS
`(hash >>> 0).toString(16)`. -/
def natToHex (n : Nat) : String := String.mk (Nat.toDigits 16 n)

/-- Model of `fastHash` (src/utils.ts): the djb2 recurrence
`h = ((h << 5) + h) ^ c` over the code units of the string, reduced to an
unsigned 32-bit value and rendered as lowercase hex.  The JS `Int32` shifts,
additions and xors all agree with arithmetic modulo 2^32, so the model works
with `% 4294967296`.  Characters are taken as code points, which matches the
UTF-16 code units of `charCodeAt` on surrogate-free strings. -/
def fastHash (s : String) : String :=
  natToHex (s.data.foldl
    (fun h c => (h * 33 % 4294967296) ^^^ c.toNat % 4294967296) 5381)

/-- JSON string escaping for the `JSON.stringify` fallback of
`generateCacheKey` (quote, backslash, and the named control escapes). -/
def jsonEscapeChar (c : Char) : String :=
  if c = '"' then "\\\""
  else if c = '\\' then "\\\\"
  else if c = '\n' then "\\n"
  else if c = '\t' then "\\t"
  else if c = '\r' then "\\r"
  else String.singleton c

/-- JSON rendering of a quoted string. -/
def jsonQuote (s : String) : String :=
  "\"" ++ String.join (s.data.map jsonEscapeChar) ++ "\""

/-- JSON rendering of a primitive field value (`undefined` never reaches this
function: `JSON.stringify` drops such fields). -/
def jsonPrim : Prim → String
  | .nullV => "null"
  | .undefinedV => "null"
  | .str s => jsonQuote s
  | .num n => toString n
  | .boolV true => "true"
  | .boolV false => "false"

/-- Model of `JSON.stringify` on a flat object: fields in insertion order,
fields with `undefined` values omitted. -/
def jsonStringifyFlat (fields : List (String × Prim)) : String :=
  "\x7b" ++
    String.intercalate ","
      ((fields.filter (fun p => p.2 ≠ Prim.undefinedV)).map
        (fun p => jsonQuote p.1 ++ ":" ++ jsonPrim p.2)) ++
  "\x7d"

/-- Lexicographic comparison of character lists by code point, the order used
by the JS default `Array.prototype.sort` on surrogate-free strings. -/
def charListLeb : List Char → List Char → Bool
  | [], _ => true
  | _ :: _, [] => false
  | a :: as, b :: bs =>
      if a.toNat < b.toNat then true
      else if b.toNat < a.toNat then false
      else charListLeb as bs

/-- String comparison used to model `Object.keys(obj).sort()`. -/
def jsStrLeb (a b : String) : Bool := charListLeb a.data b.data

/-- The sort order on keys, as a relation for `List.insertionSort`. -/
def jsKeyOrder (a b : String) : Prop := jsStrLeb a b = true

instance : DecidableRel jsKeyOrder := fun a b => by
  unfold jsKeyOrder; infer_instance

/-- JS `obj[key]` on a flat object: the first field with that key, or
`undefined` when absent. -/
def objGet (fields : List (String × Prim)) (k : String) : Prim :=
  (List.lookup k fields).getD .undefinedV

/-- Model of `generateCacheKey` (src/utils.ts).  For a flat object the field
values are primitives by construction, so the `isSimple` check of the source
is satisfied whenever the key count is at most 10; larger objects fall back to
hashing the JSON representation. -/
def generateCacheKey (methodName : String) (request : JsValue) : String :=
  match request with
  | .nullV => methodName ++ ":null"
  | .undefinedV => methodName ++ ":null"
  | .str s => methodName ++ ":" ++ s
  | .num n => methodName ++ ":" ++ toString n
  | .boolV true => methodName ++ ":true"
  | .boolV false => methodName ++ ":false"
  | .other typeTag => methodName ++ ":" ++ typeTag
  | .obj fields =>
      let keys := List.insertionSort jsKeyOrder (fields.map Prod.fst)
      if keys.length ≤ 10 then
        methodName ++ ":" ++
          String.intercalate "&"
            (keys.map (fun k => k ++ "=" ++ primString (objGet fields k)))
      else
        methodName ++ ":" ++ fastHash (jsonStringifyFlat fields)

/-! ### Fallback cache (src/FallbackCache.ts)

The underlying `lru-cache` instance is configured with `allowStale`,
`updateAgeOnGet` and `noDeleteOnStaleGet`, so a `get` returns the stored entry
whether or not its TTL has elapsed, refreshes its recency, and never removes
it.  The model keeps the entries as a list ordered most-recently-used first;
`set` inserts at the front and evicts the last (least recently used) entry
when the capacity is exceeded. -/

/-- Minimum accepted cache size (validation constant). -/
def minCacheSize : Nat := 1
/-- Maximum accepted cache size (validation constant). -/
def maxCacheSizeLimit : Nat := 100000
/-- Minimum accepted TTL in milliseconds (validation constant). -/
def minTtlMs : Nat := 10
/-- Maximum accepted TTL in milliseconds (validation constant). -/
def maxTtlMs : Nat := 86400000

/-- A stored cache value: the data plus the insertion timestamp and the TTL
the entry was stored with. -/
structure CacheEntry (α : Type) where
  data : α
  timestamp : Nat
  ttl : Nat
deriving DecidableEq, Repr

/-- State of a `FallbackCache`: entries most-recently-used first, the
capacity, and the default TTL. -/
structure FallbackCache (α : Type) where
  entries : List (String × CacheEntry α)
  maxSize : Nat
  defaultTtlMs : Nat
deriving DecidableEq, Repr

/-- Model of the private `FallbackCache.validateKey`: a key is accepted when
it is a non-empty string that is not all whitespace (`key.trim().length === 0`
rejects exactly the strings whose characters are all whitespace, including the
empty string). -/
def validateKey (key : String) : Bool := ¬ key.data.all Char.isWhitespace

/-- Remove the entry stored under `key` (the keys of a cache are unique, so
this is the single-entry delete of the underlying map). -/
def removeKey {α : Type} (key : String) (l : List (String × CacheEntry α)) :
    List (String × CacheEntry α) :=
  l.filter (fun p => ¬ p.1 = key)

/-- Core of `FallbackCache.set` after validation: insert or refresh the entry
at the most-recent position with the current timestamp, then evict the least
recently used entry if the capacity is exceeded. -/
def cacheSetCore {α : Type} (now : Nat) (key : String) (v : α) (ttlMs : Option Nat)
    (c : FallbackCache α) : FallbackCache α :=
  let e : CacheEntry α := ⟨v, now, ttlMs.getD c.defaultTtlMs⟩
  let l := (key, e) :: removeKey key c.entries
  { c with entries := if c.maxSize < l.length then l.dropLast else l }

/-- Core of `FallbackCache.get` after validation: return the stored data (even
when the TTL has elapsed — `allowStale` plus `noDeleteOnStaleGet`), moving the
entry to the most-recent position (`updateAgeOnGet`).  The staleness test in
the source only selects a debug log line and does not affect the result. -/
def cacheGetCore {α : Type} (key : String) (c : FallbackCache α) :
    Option α × FallbackCache α :=
  match c.entries.find? (fun p => p.1 = key) with
  | none => (none, c)
  | some p => (some p.2.data, { c with entries := p :: removeKey key c.entries })

/-- Model of `FallbackCache.set` (validation then the core update); a rejected
key or TTL raises, modelled as `Except.error`. -/
def cacheSet {α : Type} (now : Nat) (key : String) (v : α) (ttlMs : Option Nat)
    (c : FallbackCache α) : Except String (FallbackCache α) :=
  if ¬ validateKey key then .error "Cache key must be a non-empty string"
  else
    match ttlMs with
    | some t =>
        if t < minTtlMs ∨ maxTtlMs < t then .error "ttlMs out of range"
        else .ok (cacheSetCore now key v ttlMs c)
    | none => .ok (cacheSetCore now key v ttlMs c)

/-- Model of `FallbackCache.get` (validation then the core lookup). -/
def cacheGet {α : Type} (key : String) (c : FallbackCache α) :
    Except String (Option α × FallbackCache α) :=
  if ¬ validateKey key then .error "Cache key must be a non-empty string"
  else .ok (cacheGetCore key c)

/-- Model of `FallbackCache.delete`. -/
def cacheDelete {α : Type} (key : String) (c : FallbackCache α) :
    Except String (Bool × FallbackCache α) :=
  if ¬ validateKey key then .error "Cache key must be a non-empty string"
  else
    .ok (decide (∃ p ∈ c.entries, p.1 = key),
      { c with entries := removeKey key c.entries })

/-- Model of `FallbackCache.clear`. -/
def cacheClear {α : Type} (c : FallbackCache α) : FallbackCache α :=
  { c with entries := [] }

/-! ### Call orchestrator (src/ResilientGrpcClient.ts)

`call` runs a retry loop over attempts.  The transport and the connection
manager are external collaborators from the point of view of the loop, so the
model drives each attempt by a script entry: the attempt either found
`ensureConnected()` false, found a null client handle, succeeded with a
response and a measured latency, or failed with a wire error.  Cache keys
reaching the cache from `call` come from `generateCacheKey` (or a non-empty
user key) and always pass `validateKey`, so the model uses the core cache
operations directly.  Backoff sleeps and `handleConnectionLost` notifications
are recorded as observable effects. -/

/-- Outcome of one attempt of the retry loop, as seen by `call`. -/
inductive AttemptOutcome (α : Type) where
  | unavailable
  | noClient
  | ok (resp : α) (latencyMs : Nat)
  | err (e : GrpcError)

/-- Configuration fields of the client that the call path reads. -/
structure CallConfig where
  serviceName : String
  retryCount : Nat
  retryDelayMs : Nat
  enableFallbackCache : Bool
deriving Repr

/-- Per-call options (src/types.ts `CallOptions`), restricted to the fields the
retry loop branches on. -/
structure CallOptions where
  skipRetry : Bool
  skipCache : Bool
  cacheKey : Option String
deriving Repr

/-- Default call options (every optional field absent). -/
def defaultCallOptions : CallOptions := ⟨false, false, none⟩

/-- Mutable state threaded through `call`: the metrics tracker, the fallback
cache, the model clock, and the observable side effects of the loop (backoff
sleeps performed, `handleConnectionLost` notifications sent). -/
structure CallState (α : Type) where
  metrics : Metrics
  cache : FallbackCache α
  now : Nat
  slept : List Nat
  connectionLostSignals : Nat

/-- The `"{serviceName} is not available"` sentinel raised on the
service-unavailable path; a locally constructed `Error` with no gRPC code. -/
def notAvailableError (serviceName : String) : GrpcError :=
  ⟨none, serviceName ++ " is not available"⟩

/-- The `"{serviceName} client not connected"` error raised when the handle is
null after a successful `ensureConnected`; no gRPC code. -/
def clientNotConnectedError (serviceName : String) : GrpcError :=
  ⟨none, serviceName ++ " client not connected"⟩

/-- The `"Unknown gRPC error"` fallback thrown when the loop exits without a
recorded error. -/
def unknownGrpcError : GrpcError := ⟨none, "Unknown gRPC error"⟩

/-- Model of the private `handleServiceUnavailable`: serve the cached value if
caching is on and the key is present (counting a cache hit), otherwise count a
cache miss (when caching is on) and raise the unavailable sentinel.  The
`fallbackCache.get` call validates the key: for an invalid (whitespace-only)
key it throws a plain `Error` with no gRPC code, which propagates to the
caller before any hit or miss is recorded. -/
def handleServiceUnavailable {α : Type} (cfg : CallConfig) (key : String)
    (useCache : Bool) (st : CallState α) : Except GrpcError α × CallState α :=
  if useCache then
    match cacheGet key st.cache with
    | .error msg => (.error ⟨none, msg⟩, st)
    | .ok (some v, c') =>
        (.ok v, { st with cache := c', metrics := recordCacheHit st.metrics })
    | .ok (none, c') =>
        (.error (notAvailableError cfg.serviceName),
          { st with cache := c', metrics := recordCacheMiss st.metrics })
  else (.error (notAvailableError cfg.serviceName), st)

/-- Model of the private `executeCallAttempt`.  The `Bool` paired with a
successful response records which return path produced it: `true` when the
value came from the cache on the service-unavailable path (no
`recordSuccess`), `false` for a transport success.  On a transport success
`recordSuccess` runs first; a `fallbackCache.set` on an invalid key then
throws a codeless `Error` that escapes to the retry loop — after the success
has already been recorded. -/
def executeCallAttempt {α : Type} (cfg : CallConfig) (key : String)
    (useCache : Bool) (o : AttemptOutcome α) (st : CallState α) :
    Except GrpcError (α × Bool) × CallState α :=
  match o with
  | .unavailable =>
      match handleServiceUnavailable cfg key useCache st with
      | (.ok v, st') => (.ok (v, true), st')
      | (.error e, st') => (.error e, st')
  | .noClient => (.error (clientNotConnectedError cfg.serviceName), st)
  | .ok resp latencyMs =>
      let st₁ := { st with metrics := recordSuccess latencyMs st.metrics }
      if useCache then
        match cacheSet st₁.now key resp none st₁.cache with
        | .ok c' => (.ok (resp, false), { st₁ with cache := c' })
        | .error msg => (.error ⟨none, msg⟩, st₁)
      else (.ok (resp, false), st₁)
  | .err e => (.error e, st)

/-- Model of the private `handleRetryAttempt`: record a retry when the failed
attempt is itself a retry (`attempt > 0`); stop when the error is not
retryable or this was the last attempt; otherwise notify the connection
manager on a connection error and sleep the uncapped exponential backoff. -/
def handleRetryAttempt {α : Type} (cfg : CallConfig) (attempt : Nat)
    (e : GrpcError) (maxAttempts : Nat) (st : CallState α) :
    Bool × CallState α :=
  let st₁ := if 0 < attempt then { st with metrics := recordRetry st.metrics } else st
  if ¬ isRetryableError e ∨ maxAttempts - 1 ≤ attempt then (false, st₁)
  else
    let st₂ :=
      if isConnectionError e then
        { st₁ with connectionLostSignals := st₁.connectionLostSignals + 1 }
      else st₁
    let delay := cfg.retryDelayMs * 2 ^ attempt
    (true, { st₂ with slept := st₂.slept ++ [delay] })

/-- How the retry loop of `call` terminated. -/
inductive LoopExit (α : Type) where
  | returned (a : α) (fromUnavailableCache : Bool)
  | failed (lastError : Option GrpcError)

/-- The `for` loop of `call`: run attempts from index `attempt` while fuel
remains (`fuel` counts the attempts still allowed, starting at
`maxAttempts`). -/
def callLoop {α : Type} (cfg : CallConfig) (key : String) (useCache : Bool)
    (script : Nat → AttemptOutcome α) (maxAttempts : Nat) :
    Nat → Nat → Option GrpcError → CallState α → LoopExit α × CallState α
  | 0, _, lastError, st => (.failed lastError, st)
  | fuel + 1, attempt, _, st =>
      match executeCallAttempt cfg key useCache (script attempt) st with
      | (.ok (a, fromCache), st₁) => (.returned a fromCache, st₁)
      | (.error e, st₁) =>
          match handleRetryAttempt cfg attempt e maxAttempts st₁ with
          | (true, st₂) => callLoop cfg key useCache script maxAttempts fuel (attempt + 1) (some e) st₂
          | (false, st₂) => (.failed (some e), st₂)

/-- Result of one `call`, distinguishing the four return paths of the source:
a transport success, a cached value served on the service-unavailable path, a
stale cached value served after the loop failed, or the propagated error. -/
inductive CallResult (α : Type) where
  | success (a : α)
  | unavailableCached (a : α)
  | staleCached (a : α)
  | failure (e : GrpcError)
deriving DecidableEq, Repr

/-- Model of the private `tryFallbackCache`: nothing when caching is off;
otherwise consult the cache, counting a hit (stale value served) or a miss.
The `fallbackCache.get` call validates the key; for an invalid key it throws
a codeless `Error` before any hit or miss is recorded, and since
`tryFallbackCache` runs outside the retry loop's try block that error escapes
`call` itself. -/
def tryFallbackCache {α : Type} (key : String) (useCache : Bool) (st : CallState α) :
    Except GrpcError (Option α) × CallState α :=
  if useCache then
    match cacheGet key st.cache with
    | .error msg => (.error ⟨none, msg⟩, st)
    | .ok (some v, c') =>
        (.ok (some v), { st with cache := c', metrics := recordCacheHit st.metrics })
    | .ok (none, c') =>
        (.ok none, { st with cache := c', metrics := recordCacheMiss st.metrics })
  else (.ok none, st)

/-- The tail of `call` after the retry loop: a returned value is passed
through (tagged by which return path produced it); a failed loop records the
failure, consults the fallback cache, and either serves the stale value,
propagates the last error, or propagates the validation error thrown by the
cache lookup itself. -/
def callConclude {α : Type} (key : String) (useCache : Bool) :
    LoopExit α × CallState α → CallResult α × CallState α
  | (.returned a true, st') => (.unavailableCached a, st')
  | (.returned a false, st') => (.success a, st')
  | (.failed lastError, st') =>
      let st₁ := { st' with metrics := recordFailure st'.metrics }
      match tryFallbackCache key useCache st₁ with
      | (.ok (some v), st₂) => (.staleCached v, st₂)
      | (.ok none, st₂) => (.failure (lastError.getD unknownGrpcError), st₂)
      | (.error e, st₂) => (.failure e, st₂)

/-- One scripted invocation of `call`: the method, the request (for cache-key
derivation), the options, and the transport outcome of each attempt index. -/
structure CallSpec (α : Type) where
  methodName : String
  request : JsValue
  options : CallOptions
  script : Nat → AttemptOutcome α

/-- The effective cache key of a call:
`options.cacheKey || generateCacheKey(methodName, request)` — the generated
key is used when the option is absent or the empty string (JS falsiness). -/
def effectiveCacheKey {α : Type} (sp : CallSpec α) : String :=
  match sp.options.cacheKey with
  | some k => if k.length = 0 then generateCacheKey sp.methodName sp.request else k
  | none => generateCacheKey sp.methodName sp.request

/-- Model of `ResilientGrpcClient.call`.  After the loop fails the failure is
recorded and the fallback cache is consulted (`tryFallbackCache`). -/
def call {α : Type} (cfg : CallConfig) (sp : CallSpec α) (st : CallState α) :
    CallResult α × CallState α :=
  let maxAttempts := if sp.options.skipRetry then 1 else cfg.retryCount + 1
  let key := effectiveCacheKey sp
  let useCache := cfg.enableFallbackCache && !sp.options.skipCache
  let st := { st with metrics := recordCallStart st.metrics }
  callConclude key useCache (callLoop cfg key useCache sp.script maxAttempts maxAttempts 0 none st)

/-- Run a sequence of `call` invocations, collecting the results. -/
def runCalls {α : Type} (cfg : CallConfig) :
    List (CallSpec α) → CallState α → List (CallResult α) × CallState α
  | [], st => ([], st)
  | sp :: rest, st =>
      let (r, st') := call cfg sp st
      let (rs, st'') := runCalls cfg rest st'
      (r :: rs, st'')

/-- A fresh client state: zeroed metrics and an empty cache with the default
capacity (100) and default TTL (60000 ms). -/
def initCallState (α : Type) : CallState α :=
  ⟨initMetrics, ⟨[], 100, 60000⟩, 0, [], 0⟩

/-- Count the calls of a run that returned a cached value on the
service-unavailable path. -/
def unavailableCachedCount {α : Type} (rs : List (CallResult α)) : Nat :=
  rs.countP (fun r => match r with | .unavailableCached _ => true | _ => false)

/-! ### Connection manager (src/ConnectionManager.ts)

The async `connect()` is split at its single suspension point
(`waitForReady`): the synchronous prefix (shutdown guard, state assignment,
`connecting` emission, client factory) is one atomic segment, and the
resolution of `waitForReady` is another.  The transport contract is that
`waitForReady` completes successfully only when the channel becomes ready; a
handle that has been closed and released (the only way `client` becomes null
while a wait is pending) never becomes ready, so a successful resolution
requires a live handle, and the resolution is a failure otherwise.  The jitter
drawn by `Math.random() * 1000` is an explicit rational parameter.  Timestamp
bookkeeping (`lastConnectedAt`, `lastErrorAt`) is not referenced by any claim
and is omitted; `lastError` is kept as presence. -/

/-- The `ConnectionState` enum (src/types.ts). -/
inductive ConnectionState where
  | DISCONNECTED
  | CONNECTING
  | CONNECTED
  | RECONNECTING
deriving DecidableEq, Repr

/-- Lifecycle events emitted by the manager. -/
inductive EmittedEvent where
  | connecting
  | connected
  | disconnected
  | error
deriving DecidableEq, Repr

/-- gRPC channel connectivity states polled by the monitor loop. -/
inductive ChannelState where
  | READY
  | CONNECTING
  | IDLE
  | TRANSIENT_FAILURE
  | SHUTDOWN
deriving DecidableEq, Repr

/-- Configuration fields of the connection manager that the claims read.
`maxReconnectAttempts` defaults to `Infinity`, modelled as `none`. -/
structure ConnConfig where
  initialReconnectDelayMs : ℚ
  maxReconnectDelayMs : ℚ
  maxReconnectAttempts : Option Nat
deriving DecidableEq, Repr

/-- Default connection configuration (src/types.ts `DEFAULT_CONFIG`). -/
def defaultConnConfig : ConnConfig := ⟨1000, 30000, none⟩

/-- State of a `ConnectionManager`.  `client` is the presence of the transport
handle; `reconnectTimer` holds the armed delay; `pendingReady` records a
`waitForReady` continuation not yet resolved; `emitted` is the log of emitted
lifecycle events, most recent first. -/
structure ConnMgr where
  config : ConnConfig
  client : Bool
  state : ConnectionState
  reconnectAttempts : Nat
  reconnectTimer : Option ℚ
  monitorTimer : Bool
  pendingReady : Bool
  connectPromise : Bool
  isShuttingDown : Bool
  lastError : Bool
  emitted : List EmittedEvent
deriving DecidableEq, Repr

/-- A freshly constructed manager with the default configuration. -/
def initConnMgr : ConnMgr :=
  ⟨defaultConnConfig, false, .DISCONNECTED, 0, none, false, false, false, false, false, []⟩

/-- Model of `ConnectionManager.isConnected`. -/
def ConnMgr.isConnected (s : ConnMgr) : Bool :=
  s.state = ConnectionState.CONNECTED && s.client

/-- Append an emitted event to the log. -/
def emitEvent (e : EmittedEvent) (s : ConnMgr) : ConnMgr :=
  { s with emitted := e :: s.emitted }

/-- Whether `reconnectAttempts >= maxReconnectAttempts`; always false against
the `Infinity` default. -/
def attemptsExhausted (s : ConnMgr) : Bool :=
  match s.config.maxReconnectAttempts with
  | none => false
  | some m => m ≤ s.reconnectAttempts

/-- Model of the private `scheduleReconnect` with the drawn jitter `j`: no-op
when shutting down or a timer is armed; give up (log only) when the attempt
budget is exhausted; otherwise arm a timer for
`min(initialReconnectDelayMs * 2^attempts + jitter, maxReconnectDelayMs)` and
increment `reconnectAttempts`. -/
def scheduleReconnect (j : ℚ) (s : ConnMgr) : ConnMgr :=
  if s.isShuttingDown ∨ ¬ s.reconnectTimer = none then s
  else if attemptsExhausted s then s
  else
    let baseDelay := s.config.initialReconnectDelayMs * 2 ^ s.reconnectAttempts
    { s with
      reconnectTimer := some (min (baseDelay + j) s.config.maxReconnectDelayMs)
      reconnectAttempts := s.reconnectAttempts + 1 }

/-- Model of the private `handleConnectionSuccess`: state to `CONNECTED`,
reset the attempt counter, clear the last error, emit `connected`, and start
the monitor loop (`monitorConnection` arms its timer because the handle is
present). -/
def handleConnectionSuccess (s : ConnMgr) : ConnMgr :=
  let s₁ := emitEvent .connected
    { s with
      state := .CONNECTED
      reconnectAttempts := 0
      lastError := false }
  { s₁ with monitorTimer := s₁.client }

/-- Model of the private `handleConnectionFailure` with jitter `j` for the
scheduled reconnect: record the error, state to `DISCONNECTED`, emit `error`,
schedule a reconnect.  The client handle is not released here. -/
def handleConnectionFailure (j : ℚ) (s : ConnMgr) : ConnMgr :=
  scheduleReconnect j
    (emitEvent .error { s with lastError := true, state := .DISCONNECTED })

/-- Model of `ConnectionManager.handleConnectionLost`: no-op unless currently
`CONNECTED`; otherwise state to `DISCONNECTED`, emit `disconnected`, release
the handle, schedule a reconnect with jitter `j`. -/
def handleConnectionLost (j : ℚ) (s : ConnMgr) : ConnMgr :=
  if ¬ s.state = ConnectionState.CONNECTED then s
  else
    scheduleReconnect j
      (emitEvent .disconnected { s with state := .DISCONNECTED, client := false })

/-- Model of `ConnectionManager.close`: set the shutdown flag, cancel both
timers, release the handle, state to `DISCONNECTED`, emit `disconnected`. -/
def ConnMgr.close (s : ConnMgr) : ConnMgr :=
  emitEvent .disconnected
    { s with
      isShuttingDown := true
      reconnectTimer := none
      monitorTimer := false
      client := false
      state := .DISCONNECTED }

/-- The synchronous prefix of the private `connect()` once past the shutdown
guard: state to `RECONNECTING` (when attempts were made) or `CONNECTING`, emit
`connecting`, then run the client factory.  A factory success installs the
fresh handle and leaves `waitForReady` pending; a factory exception is caught
by `connect` and handled by `handleConnectionFailure` (the old handle, if any,
is not touched). -/
def connectBegin (factoryOk : Bool) (j : ℚ) (s : ConnMgr) : ConnMgr :=
  let s₁ := emitEvent .connecting
    { s with
      state := if 0 < s.reconnectAttempts then .RECONNECTING else .CONNECTING }
  if factoryOk then { s₁ with client := true, pendingReady := true }
  else handleConnectionFailure j s₁

/-- Resolution of a pending `waitForReady`: on success with a live handle,
`handleConnectionSuccess`; otherwise (failure, or the handle was released
while waiting, in which case the wait cannot succeed) `handleConnectionFailure`
with jitter `j`. -/
def resolveReadyCore (ok : Bool) (j : ℚ) (s : ConnMgr) : ConnMgr :=
  let s₁ := { s with pendingReady := false }
  if ok ∧ s.client then handleConnectionSuccess s₁
  else handleConnectionFailure j s₁

/-- One firing of the monitor loop timer reading channel state `cs`: stop when
shutting down or the handle is gone; on `TRANSIENT_FAILURE`/`SHUTDOWN` stop
and invoke `handleConnectionLost`; otherwise re-arm. -/
def monitorFire (cs : ChannelState) (j : ℚ) (s : ConnMgr) : ConnMgr :=
  if s.isShuttingDown ∨ ¬ s.client then { s with monitorTimer := false }
  else if cs = ChannelState.TRANSIENT_FAILURE ∨ cs = ChannelState.SHUTDOWN then
    handleConnectionLost j { s with monitorTimer := false }
  else s

/-- Transitions of the manager: each constructor is one atomic segment of the
source between suspension points, with its nondeterministic inputs (factory
and ready outcomes, channel state, jitter) as parameters. -/
inductive ConnEvent where
  | startConnect (factoryOk : Bool) (j : ℚ)
  | resolveReady (ok : Bool) (j : ℚ)
  | lost (j : ℚ)
  | closeEvt
  | monitor (cs : ChannelState) (j : ℚ)
  | reconnectFire (factoryOk : Bool) (j : ℚ)

/-- The step function.  `startConnect` is guarded by the shutdown check of
`connect()` (a shutdown rejection changes nothing); `resolveReady` requires a
pending wait; `monitor` requires an armed monitor timer; `reconnectFire`
requires an armed reconnect timer and runs `connect()` after clearing it. -/
def step (s : ConnMgr) : ConnEvent → ConnMgr
  | .startConnect factoryOk j =>
      if s.isShuttingDown then s else connectBegin factoryOk j s
  | .resolveReady ok j =>
      if s.pendingReady then resolveReadyCore ok j s else s
  | .lost j => handleConnectionLost j s
  | .closeEvt => s.close
  | .monitor cs j => if s.monitorTimer then monitorFire cs j s else s
  | .reconnectFire factoryOk j =>
      match s.reconnectTimer with
      | none => s
      | some _ =>
          let s₁ := { s with reconnectTimer := none }
          if s₁.isShuttingDown then s₁ else connectBegin factoryOk j s₁

/-- Run a sequence of transitions. -/
def runEvents (s : ConnMgr) (evs : List ConnEvent) : ConnMgr :=
  evs.foldl step s

/-- Model of `ConnectionManager.ensureConnected` for a caller that runs its
own connect attempt, with the outcome parameters of that attempt.  The fast
path returns true when already connected with a handle.  Otherwise the shared
pending-connect promise is registered, `connect()` runs (its rejection — from
the shutdown guard, the factory, or `waitForReady` — is caught and turned
into `false`), and the promise is cleared in the finally action regardless of
outcome.  The function is total: no outcome propagates an exception. -/
def ensureConnected (factoryOk readyOk : Bool) (j : ℚ) (s : ConnMgr) :
    Bool × ConnMgr :=
  if s.state = ConnectionState.CONNECTED ∧ s.client then (true, s)
  else
    let s₀ := { s with connectPromise := true }
    if s₀.isShuttingDown then (false, { s₀ with connectPromise := false })
    else
      let s₁ := connectBegin factoryOk j s₀
      if factoryOk then
        let s₂ := resolveReadyCore readyOk j s₁
        (s₂.state = ConnectionState.CONNECTED, { s₂ with connectPromise := false })
      else (false, { s₁ with connectPromise := false })

/-- Health report assembled by `ResilientGrpcClient.getHealth`: the connection
fields plus `latencyMs`, which the source fills from the metrics snapshot
field `avgLatencyMs`. -/
structure ClientHealth where
  state : ConnectionState
  healthy : Bool
  reconnectAttempts : Nat
  latencyMs : Nat
  metrics : ClientMetrics
deriving DecidableEq, Repr

/-- Model of `ResilientGrpcClient.getHealth`. -/
def getHealth (cm : ConnMgr) (m : Metrics) : ClientHealth :=
  { state := cm.state
    healthy := cm.isConnected
    reconnectAttempts := cm.reconnectAttempts
    latencyMs := (getMetrics m).avgLatencyMs
    metrics := getMetrics m }

/-! ### Named scenario inputs and proof-support definitions -/

/-- Client configuration of scenario S1: `retryCount = 3`, default
`retryDelayMs`, cache disabled. -/
def cfgRetry : CallConfig := ⟨"TestService", 3, 1000, false⟩

/-- Transport script of scenario S1: `UNAVAILABLE` on the first two attempts,
success (payload 42, latency 5 ms) on the third. -/
def specRetry : CallSpec Nat :=
  ⟨"M", .obj [("a", .num 1)], defaultCallOptions,
    fun i =>
      [AttemptOutcome.err ⟨some statusUnavailable, "UNAVAILABLE"⟩,
       AttemptOutcome.err ⟨some statusUnavailable, "UNAVAILABLE"⟩,
       AttemptOutcome.ok 42 5].getD i (.err ⟨some statusUnavailable, "UNAVAILABLE"⟩)⟩

/-- Client configuration with the fallback cache enabled and no retries. -/
def cfgCache : CallConfig := ⟨"TestService", 0, 1000, true⟩

/-- Two-call sequence: a transport success that populates the cache, then a
call whose only attempt finds the service unavailable and is served from the
cache. -/
def specsUnavailableCached : List (CallSpec Nat) :=
  [⟨"M", .obj [("a", .num 1)], defaultCallOptions, fun _ => .ok 7 5⟩,
   ⟨"M", .obj [("a", .num 1)], defaultCallOptions, fun _ => .unavailable⟩]

/-- 1 for an attempt that succeeded on the transport (the path that runs
`recordSuccess`), 0 otherwise. -/
def attemptSuccessCount {α : Type} : Except GrpcError (α × Bool) → Nat
  | .ok (_, false) => 1
  | _ => 0

/-- 1 for a loop exit that returned a transport success, 0 otherwise. -/
def exitSuccessCount {α : Type} : LoopExit α → Nat
  | .returned _ false => 1
  | _ => 0

/-- 1 for a call result served from the cache on the service-unavailable
path, 0 otherwise. -/
def resultUnavailableCachedCount {α : Type} : CallResult α → Nat
  | .unavailableCached _ => 1
  | _ => 0

/-- Fold a list of observed latencies into the metrics tracker. -/
def applySuccesses (ls : List Nat) (m : Metrics) : Metrics :=
  ls.foldl (fun acc l => recordSuccess l acc) m

/-- The quiescent shape `close()` leaves behind: shutting down, disconnected,
no timers, no handle. -/
def closedQuiescent (s : ConnMgr) : Prop :=
  s.isShuttingDown = true ∧ s.state = ConnectionState.DISCONNECTED ∧
  s.reconnectTimer = none ∧ s.monitorTimer = false ∧ s.client = false

/-! ## Theorems -/

/-! ### Field-stability lemmas for the reconnect scheduler -/

@[simp] theorem scheduleReconnect_state (j : ℚ) (s : ConnMgr) :
    (scheduleReconnect j s).state = s.state := by
  unfold scheduleReconnect; split_ifs <;> rfl

@[simp] theorem scheduleReconnect_client (j : ℚ) (s : ConnMgr) :
    (scheduleReconnect j s).client = s.client := by
  unfold scheduleReconnect; split_ifs <;> rfl

@[simp] theorem scheduleReconnect_isShuttingDown (j : ℚ) (s : ConnMgr) :
    (scheduleReconnect j s).isShuttingDown = s.isShuttingDown := by
  unfold scheduleReconnect; split_ifs <;> rfl

@[simp] theorem scheduleReconnect_monitorTimer (j : ℚ) (s : ConnMgr) :
    (scheduleReconnect j s).monitorTimer = s.monitorTimer := by
  unfold scheduleReconnect; split_ifs <;> rfl

@[simp] theorem scheduleReconnect_pendingReady (j : ℚ) (s : ConnMgr) :
    (scheduleReconnect j s).pendingReady = s.pendingReady := by
  unfold scheduleReconnect; split_ifs <;> rfl

@[simp] theorem scheduleReconnect_connectPromise (j : ℚ) (s : ConnMgr) :
    (scheduleReconnect j s).connectPromise = s.connectPromise := by
  unfold scheduleReconnect; split_ifs <;> rfl

@[simp] theorem scheduleReconnect_emitted (j : ℚ) (s : ConnMgr) :
    (scheduleReconnect j s).emitted = s.emitted := by
  unfold scheduleReconnect; split_ifs <;> rfl

theorem scheduleReconnect_shutdown_or_armed (j : ℚ) (s : ConnMgr)
    (h : s.isShuttingDown = true ∨ s.reconnectTimer ≠ none) :
    scheduleReconnect j s = s := by
  unfold scheduleReconnect
  rcases h with h | h <;> simp [h]

/-- C8: each time a reconnect is scheduled (not shutting down, no timer armed,
attempt budget not exhausted) the armed delay is
`min(initialReconnectDelayMs * 2^reconnectAttempts + jitter, maxReconnectDelayMs)`
and `reconnectAttempts` increases by exactly one; scheduling is a no-op (no
timer armed, no attempt increment, no other change) when the manager is
shutting down, a timer is already armed, or
`reconnectAttempts ≥ maxReconnectAttempts`. -/
theorem scheduleReconnect_spec (s : ConnMgr) (j : ℚ) (h₀ : 0 ≤ j) (h₁ : j < 1000) :
    (s.isShuttingDown = true ∨ s.reconnectTimer ≠ none → scheduleReconnect j s = s) ∧
    (s.isShuttingDown = false → s.reconnectTimer = none → attemptsExhausted s = true →
      scheduleReconnect j s = s) ∧
    (s.isShuttingDown = false → s.reconnectTimer = none → attemptsExhausted s = false →
      (scheduleReconnect j s).reconnectAttempts = s.reconnectAttempts + 1 ∧
      (scheduleReconnect j s).reconnectTimer =
        some (min (s.config.initialReconnectDelayMs * 2 ^ s.reconnectAttempts + j)
          s.config.maxReconnectDelayMs)) := by
  refine ⟨scheduleReconnect_shutdown_or_armed j s, ?_, ?_⟩
  · intro hs ht hexh
    unfold scheduleReconnect
    simp [hs, ht, hexh]
  · intro hs ht hexh
    unfold scheduleReconnect
    simp [hs, ht, hexh]

/-- Witness for `scheduleReconnect_spec`: from the fresh manager with jitter
500, one scheduling arms the timer at `min(1000 * 2^0 + 500, 30000) = 1500` ms
and takes the attempt counter to 1. -/
theorem scheduleReconnect_spec_witness :
    (scheduleReconnect 500 initConnMgr).reconnectAttempts = 1 ∧
    (scheduleReconnect 500 initConnMgr).reconnectTimer = some 1500 := by
  have h := (scheduleReconnect_spec initConnMgr 500 (by norm_num) (by norm_num)).2.2
    rfl rfl rfl
  refine ⟨h.1, ?_⟩
  rw [h.2]
  norm_num [initConnMgr, defaultConnConfig]

/-! ### C10 — errors without a numeric status code are never retried -/

/-- C10: `isRetryableError` and `isConnectionError` are false for any error
without a numeric gRPC status code; the locally raised
`"<serviceName> is not available"` and `"<serviceName> client not connected"`
errors carry no code; and for such an error `handleRetryAttempt` stops the
retry loop at the current attempt, performing no backoff sleep and no
`handleConnectionLost` notification (the state changes only by the
`recordRetry` of a failed attempt with index above zero). -/
theorem no_code_errors_not_retried (e : GrpcError) (h : e.code = none) :
    isRetryableError e = false ∧ isConnectionError e = false ∧
    (∀ svc : String,
      (notAvailableError svc).code = none ∧ (clientNotConnectedError svc).code = none) ∧
    (∀ (α : Type) (cfg : CallConfig) (attempt maxAttempts : Nat) (st : CallState α),
      handleRetryAttempt cfg attempt e maxAttempts st =
        (false,
          if 0 < attempt then { st with metrics := recordRetry st.metrics } else st)) := by
  have hr : isRetryableError e = false := by simp [isRetryableError, h]
  have hc : isConnectionError e = false := by simp [isConnectionError, h]
  refine ⟨hr, hc, fun svc => ⟨rfl, rfl⟩, fun α cfg attempt maxAttempts st => ?_⟩
  unfold handleRetryAttempt
  simp [hr]

/-- Witness for `no_code_errors_not_retried` at the unavailable sentinel: the
loop stops on attempt 0 of 4 with the state untouched. -/
theorem no_code_errors_not_retried_witness :
    handleRetryAttempt (α := Nat) cfgRetry 0 (notAvailableError "TestService") 4
      (initCallState Nat) = (false, initCallState Nat) := by
  have h := (no_code_errors_not_retried (notAvailableError "TestService") rfl).2.2.2
    Nat cfgRetry 0 4 (initCallState Nat)
  simpa using h

/-! ### C9 — ensureConnected is total over connect outcomes -/

/-- C9: for every outcome of a connect attempt run by `ensureConnected`
(shutdown rejection, client-factory exception, `waitForReady` failure or
success), the operation resolves to a boolean — the model function is total,
no outcome propagates an exception — the boolean is true exactly when the
resulting state is `CONNECTED` with a non-null handle, and whenever the fast
path was not taken (a connect attempt actually ran) the shared pending-connect
promise is cleared. -/
theorem ensureConnected_total (factoryOk readyOk : Bool) (j : ℚ) (s : ConnMgr) :
    ((ensureConnected factoryOk readyOk j s).1 = true ↔
      ((ensureConnected factoryOk readyOk j s).2.state = ConnectionState.CONNECTED ∧
        (ensureConnected factoryOk readyOk j s).2.client = true)) ∧
    (¬ (s.state = ConnectionState.CONNECTED ∧ s.client = true) →
      (ensureConnected factoryOk readyOk j s).2.connectPromise = false) := by
  unfold ensureConnected
  by_cases hfast : s.state = ConnectionState.CONNECTED ∧ s.client = true
  · simp [hfast]
  · by_cases hsd : s.isShuttingDown = true
    · simp [hfast, hsd]
    · cases factoryOk
      · simp [hfast, hsd, connectBegin, handleConnectionFailure, emitEvent]
      · cases readyOk
        · simp [hfast, hsd, connectBegin, resolveReadyCore, handleConnectionFailure,
            emitEvent]
        · simp [hfast, hsd, connectBegin, resolveReadyCore, handleConnectionSuccess,
            emitEvent]

/-- Witness for `ensureConnected_total`: from the fresh manager with a
successful factory and ready, `ensureConnected` returns true and leaves no
pending promise. -/
theorem ensureConnected_total_witness :
    (ensureConnected true true 0 initConnMgr).1 = true ∧
    (ensureConnected true true 0 initConnMgr).2.connectPromise = false := by
  have h := ensureConnected_total true true 0 initConnMgr
  exact ⟨h.1.mpr (by decide), h.2 (by decide)⟩

/-! ### C7 — getHealth latency field -/

@[simp] theorem recordSuccess_successfulCalls (l : Nat) (m : Metrics) :
    (recordSuccess l m).successfulCalls = m.successfulCalls + 1 := rfl

@[simp] theorem recordSuccess_latencySum (l : Nat) (m : Metrics) :
    (recordSuccess l m).latencySum = m.latencySum + l := rfl

@[simp] theorem recordSuccess_avgLatencyMs (l : Nat) (m : Metrics) :
    (recordSuccess l m).avgLatencyMs =
      jsRound (m.latencySum + l) (m.successfulCalls + 1) := rfl

theorem applySuccesses_fields (ls : List Nat) (m : Metrics) :
    (applySuccesses ls m).latencySum = m.latencySum + ls.sum ∧
    (applySuccesses ls m).successfulCalls = m.successfulCalls + ls.length ∧
    (ls ≠ [] → (applySuccesses ls m).avgLatencyMs =
      jsRound (m.latencySum + ls.sum) (m.successfulCalls + ls.length)) := by
  induction ls generalizing m with
  | nil => simp [applySuccesses]
  | cons l ls ih =>
      have hstep : applySuccesses (l :: ls) m = applySuccesses ls (recordSuccess l m) := rfl
      rcases ih (recordSuccess l m) with ⟨h₁, h₂, h₃⟩
      rw [hstep]
      refine ⟨by rw [h₁]; simp; omega, by rw [h₂]; simp; omega, fun _ => ?_⟩
      rcases List.eq_nil_or_concat ls with hnil | _
      · subst hnil
        simp [applySuccesses]
      · have h₃' := h₃ (by rintro rfl; simp_all)
        rw [h₃']
        simp
        congr 1 <;> omega

/-- C7 counterexample: after two successful calls with latencies 0 ms and
100 ms, the claim says `getHealth().latencyMs` equals the latency of the most
recent call (100); the code reports the rounded running average (50). -/
theorem getHealth_latency_counterexample :
    ¬ ((getHealth initConnMgr (applySuccesses [0, 100] initMetrics)).latencyMs = 100) := by
  decide

/-- C7 amended: `getHealth().latencyMs` is filled from the metrics snapshot
field `avgLatencyMs`: after any non-empty sequence of recorded successful
calls it equals the rounded average of all their latencies, not the latency of
the most recent call. -/
theorem getHealth_latency_is_average (cm : ConnMgr) (ls : List Nat) (h : ls ≠ []) :
    (getHealth cm (applySuccesses ls initMetrics)).latencyMs =
      jsRound ls.sum ls.length := by
  have := (applySuccesses_fields ls initMetrics).2.2 h
  simpa [getHealth, getMetrics, initMetrics] using this

/-- Witness for `getHealth_latency_is_average`: a single successful call with
latency 5 ms reports `latencyMs = round(5 / 1)`. -/
theorem getHealth_latency_is_average_witness :
    (getHealth initConnMgr (applySuccesses [5] initMetrics)).latencyMs =
      jsRound ([5] : List Nat).sum ([5] : List Nat).length :=
  getHealth_latency_is_average initConnMgr [5] (by decide)

/-! ### C2 — retry-then-succeed accounting -/

/-- C2 counterexample: under `retryCount = 3` with the S1 transport script
(UNAVAILABLE, UNAVAILABLE, success), the metrics afterwards do NOT read
`totalRetries = 2`: `recordRetry` runs only for a failed attempt with index
above zero, so the succeeding third attempt is never counted and
`totalRetries = 1`. -/
theorem retry_then_succeed_counterexample :
    ¬ ((call cfgRetry specRetry (initCallState Nat)).2.metrics.totalRetries = 2) := by
  decide

/-- C2 amended: with `retryCount = 3` (`maxAttempts = 4`) and UNAVAILABLE on
the first two attempts then success, `call` returns the success payload and
the metrics afterwards read `totalCalls = 1`, `totalRetries = 1` (only the
second failed attempt is recorded as a retry; the retry that succeeds is not
counted), `successfulCalls = 1`, `failedCalls = 0`. -/
theorem retry_then_succeed_accounting :
    (call cfgRetry specRetry (initCallState Nat)).1 = CallResult.success 42 ∧
    (call cfgRetry specRetry (initCallState Nat)).2.metrics.totalCalls = 1 ∧
    (call cfgRetry specRetry (initCallState Nat)).2.metrics.totalRetries = 1 ∧
    (call cfgRetry specRetry (initCallState Nat)).2.metrics.successfulCalls = 1 ∧
    (call cfgRetry specRetry (initCallState Nat)).2.metrics.failedCalls = 0 := by
  decide

/-! ### C5 — stale-allowed cache read -/

theorem removeKey_eq_self {α : Type} {k : String} {y : List (String × CacheEntry α)}
    (h : ∀ p ∈ y, ¬ p.1 = k) : removeKey k y = y := by
  unfold removeKey
  rw [List.filter_eq_self]
  intro a ha
  simpa using h a ha

theorem mem_removeKey_ne {α : Type} {k : String} {x : List (String × CacheEntry α)}
    {p : String × CacheEntry α} (h : p ∈ removeKey k x) : ¬ p.1 = k := by
  unfold removeKey at h
  simpa using (List.of_mem_filter h)

theorem cacheGetCore_after_insert {α : Type} (k : String) (e : CacheEntry α)
    (L : List (String × CacheEntry α)) (ms dt : Nat) (hmax : 1 ≤ ms)
    (hLP : ∀ p ∈ L, ¬ p.1 = k) :
    cacheGetCore k
        ⟨if ms < ((k, e) :: L).length then ((k, e) :: L).dropLast else (k, e) :: L, ms, dt⟩ =
      (some e.data,
        ⟨if ms < ((k, e) :: L).length then ((k, e) :: L).dropLast else (k, e) :: L, ms, dt⟩) := by
  by_cases hlen : ms < ((k, e) :: L).length
  · have hLne : L ≠ [] := by
      intro hnil
      rw [hnil] at hlen
      simp at hlen
      omega
    obtain ⟨b, t, rfl⟩ := List.exists_cons_of_ne_nil hLne
    have hdrop : ((k, e) :: b :: t).dropLast = (k, e) :: (b :: t).dropLast := rfl
    have hsubP : ∀ p ∈ (b :: t).dropLast, ¬ p.1 = k := fun p hp =>
      hLP p (List.dropLast_sublist (b :: t) |>.subset hp)
    have hrem : removeKey k ((k, e) :: (b :: t).dropLast) = (b :: t).dropLast := by
      have h1 : removeKey k ((k, e) :: (b :: t).dropLast) =
          removeKey k ((b :: t).dropLast) := by
        simp [removeKey]
      rw [h1, removeKey_eq_self hsubP]
    have hif : (if ms < ((k, e) :: b :: t).length then ((k, e) :: b :: t).dropLast
        else (k, e) :: b :: t) = (k, e) :: (b :: t).dropLast := by
      rw [if_pos hlen, hdrop]
    rw [hif]
    have hfind : List.find? (fun p => decide (p.1 = k)) ((k, e) :: (b :: t).dropLast) =
        some (k, e) := List.find?_cons_of_pos _ (by simp)
    simp [cacheGetCore, hfind, hrem]
  · have hrem : removeKey k ((k, e) :: L) = L := by
      have h1 : removeKey k ((k, e) :: L) = removeKey k L := by
        simp [removeKey]
      rw [h1, removeKey_eq_self hLP]
    have hif : (if ms < ((k, e) :: L).length then ((k, e) :: L).dropLast
        else (k, e) :: L) = (k, e) :: L := if_neg hlen
    rw [hif]
    have hfind : List.find? (fun p => decide (p.1 = k)) ((k, e) :: L) = some (k, e) :=
      List.find?_cons_of_pos _ (by simp)
    simp [cacheGetCore, hfind, hrem]

/-- C5: after `set(k, v, ttl = T)` with a valid key and a TTL in the accepted
range, a later `get(k)` — at any later time, in particular after more than
`T` milliseconds — still returns `v` (not null) and leaves the cache exactly
as it was: the entry is not removed (the underlying store is configured with
`allowStale` and `noDeleteOnStaleGet`, and the staleness test in `get` only
selects a debug log line). -/
theorem stale_cache_get {α : Type} (c : FallbackCache α) (k : String) (v : α)
    (T now now' : Nat) (hk : validateKey k = true) (hmax : 1 ≤ c.maxSize)
    (hT₁ : minTtlMs ≤ T) (hT₂ : T ≤ maxTtlMs) (hel : now + T < now') :
    cacheSet now k v (some T) c = .ok (cacheSetCore now k v (some T) c) ∧
    cacheGet k (cacheSetCore now k v (some T) c) =
      .ok (some v, cacheSetCore now k v (some T) c) := by
  have hT : ¬ (T < minTtlMs ∨ maxTtlMs < T) := by omega
  constructor
  · simp [cacheSet, hk, hT]
  · have hLP : ∀ p ∈ removeKey k c.entries, ¬ p.1 = k := fun p hp => mem_removeKey_ne hp
    have hcore : cacheSetCore now k v (some T) c =
        ⟨if c.maxSize < ((k, ⟨v, now, T⟩) :: removeKey k c.entries).length then
            ((k, (⟨v, now, T⟩ : CacheEntry α)) :: removeKey k c.entries).dropLast
          else (k, ⟨v, now, T⟩) :: removeKey k c.entries, c.maxSize, c.defaultTtlMs⟩ := by
      simp [cacheSetCore]
    rw [hcore]
    have hget := cacheGetCore_after_insert k (⟨v, now, T⟩ : CacheEntry α)
      (removeKey k c.entries) c.maxSize c.defaultTtlMs hmax hLP
    simp only [List.length_cons] at hget
    simp [cacheGet, hk, hget]

/-- Witness for `stale_cache_get`: set key "M:a=1" with TTL 10 ms at time 0 in
a fresh cache; a get at time 11 (elapsed 11 > 10) returns the value and the
cache is unchanged. -/
theorem stale_cache_get_witness :
    cacheGet "M:a=1" (cacheSetCore 0 "M:a=1" (42 : Nat) (some 10) ⟨[], 100, 60000⟩) =
      .ok (some 42, cacheSetCore 0 "M:a=1" (42 : Nat) (some 10) ⟨[], 100, 60000⟩) :=
  (stale_cache_get ⟨[], 100, 60000⟩ "M:a=1" 42 10 0 11 (by decide) (by decide)
    (by decide) (by decide) (by decide)).2

/-! ### C3 — connection-handle invariant I1 -/

theorem step_connected_client (s : ConnMgr) (e : ConnEvent)
    (h : s.state = ConnectionState.CONNECTED → s.client = true) :
    (step s e).state = ConnectionState.CONNECTED → (step s e).client = true := by
  cases e with
  | startConnect fo j =>
      by_cases hsd : s.isShuttingDown
      · simpa [step, hsd] using h
      · cases fo
        · simp [step, hsd, connectBegin, handleConnectionFailure, emitEvent]
        · simp only [step, hsd, if_false, Bool.false_eq_true, connectBegin, emitEvent]
          split_ifs <;> simp
  | resolveReady ok j =>
      by_cases hp : s.pendingReady
      · by_cases hoc : ok = true ∧ s.client = true
        · simp [step, hp, resolveReadyCore, hoc, handleConnectionSuccess, emitEvent]
        · simp [step, hp, resolveReadyCore, hoc, handleConnectionFailure, emitEvent]
      · simpa [step, hp] using h
  | lost j =>
      by_cases hc : s.state = ConnectionState.CONNECTED
      · simp [step, handleConnectionLost, hc, emitEvent]
      · simpa [step, handleConnectionLost, hc] using h
  | closeEvt => simp [step, ConnMgr.close, emitEvent]
  | monitor cs j =>
      by_cases hm : s.monitorTimer
      · by_cases hstop : s.isShuttingDown = true ∨ s.client = false
        · simpa [step, hm, monitorFire, hstop] using h
        · by_cases hfail : cs = ChannelState.TRANSIENT_FAILURE ∨ cs = ChannelState.SHUTDOWN
          · by_cases hc : s.state = ConnectionState.CONNECTED
            · simp [step, hm, monitorFire, hstop, hfail, handleConnectionLost, hc, emitEvent]
            · simpa [step, hm, monitorFire, hstop, hfail, handleConnectionLost, hc] using h
          · simpa [step, hm, monitorFire, hstop, hfail] using h
      · simpa [step, hm] using h
  | reconnectFire fo j =>
      match ht : s.reconnectTimer with
      | none => simpa [step, ht] using h
      | some d =>
          by_cases hsd : s.isShuttingDown
          · simpa [step, ht, hsd] using h
          · cases fo
            · simp [step, ht, hsd, connectBegin, handleConnectionFailure, emitEvent]
            · simp only [step, ht, hsd, if_false, Bool.false_eq_true, connectBegin, emitEvent]
              split_ifs <;> simp

theorem runEvents_connected_client (evs : List ConnEvent) : ∀ (s : ConnMgr),
    (s.state = ConnectionState.CONNECTED → s.client = true) →
    ((runEvents s evs).state = ConnectionState.CONNECTED →
      (runEvents s evs).client = true) := by
  induction evs with
  | nil => intro s h; simpa [runEvents] using h
  | cons e evs ih =>
      intro s h
      simpa [runEvents] using ih (step s e) (step_connected_client s e h)

/-- C3 amended: only the forward direction of I1 holds.  In every state
reachable from a fresh manager by any interleaving of the modelled
transitions, `state = CONNECTED` implies a non-null transport handle.  The
reverse direction is false: during a pending connect the handle is installed
while the state is still `CONNECTING`, and after a failed connect attempt
`handleConnectionFailure` leaves the handle non-null in state `DISCONNECTED`
(which is why `isConnected()` tests both conditions). -/
theorem connected_implies_handle (evs : List ConnEvent)
    (h : (runEvents initConnMgr evs).state = ConnectionState.CONNECTED) :
    (runEvents initConnMgr evs).client = true :=
  runEvents_connected_client evs initConnMgr
    (fun hc => absurd hc (by simp [initConnMgr])) h

/-- Witness for `connected_implies_handle`: after a connect that reached
ready, the state is `CONNECTED` and the handle is present. -/
theorem connected_implies_handle_witness :
    (runEvents initConnMgr
      [ConnEvent.startConnect true 0, ConnEvent.resolveReady true 0]).client = true :=
  connected_implies_handle [ConnEvent.startConnect true 0, ConnEvent.resolveReady true 0]
    (by decide)

/-- C3 counterexample: one step into a connect (factory done, ready pending)
the manager is reachable, holds a non-null handle, and its state is
`CONNECTING`, so `state = CONNECTED ⇔ handle non-null` fails. -/
theorem connection_handle_iff_counterexample :
    ¬ (((runEvents initConnMgr [ConnEvent.startConnect true 0]).state =
          ConnectionState.CONNECTED) ↔
        ((runEvents initConnMgr [ConnEvent.startConnect true 0]).client = true)) := by
  decide

/-! ### C4 — post-close quiescence -/

theorem close_closedQuiescent (s : ConnMgr) : closedQuiescent s.close := by
  simp [closedQuiescent, ConnMgr.close, emitEvent]

theorem quiescent_step (s : ConnMgr) (e : ConnEvent) (h : closedQuiescent s) :
    closedQuiescent (step s e) ∧
    (step s e).emitted.count EmittedEvent.connecting =
      s.emitted.count EmittedEvent.connecting := by
  obtain ⟨h1, h2, h3, h4, h5⟩ := h
  cases e with
  | startConnect fo j => simp [step, h1, closedQuiescent, h2, h3, h4, h5]
  | resolveReady ok j =>
      by_cases hp : s.pendingReady
      · have hoc : ¬ (ok = true ∧ s.client = true) := by simp [h5]
        have hsr : ∀ (t : ConnMgr), t.isShuttingDown = true → scheduleReconnect j t = t :=
          fun t ht => scheduleReconnect_shutdown_or_armed j t (Or.inl ht)
        simp [step, hp, resolveReadyCore, hoc, handleConnectionFailure, emitEvent, hsr,
          closedQuiescent, h1, h3, h4, h5]
      · simp [step, hp, closedQuiescent, h1, h2, h3, h4, h5]
  | lost j =>
      have hc : ¬ s.state = ConnectionState.CONNECTED := by simp [h2]
      simp [step, handleConnectionLost, hc, closedQuiescent, h1, h2, h3, h4, h5]
  | closeEvt => simp [step, ConnMgr.close, emitEvent, closedQuiescent]
  | monitor cs j => simp [step, h4, closedQuiescent, h1, h2, h3, h5]
  | reconnectFire fo j => simp [step, h3, closedQuiescent, h1, h2, h4, h5]

theorem runEvents_quiescent (evs : List ConnEvent) : ∀ (s : ConnMgr),
    closedQuiescent s →
    closedQuiescent (runEvents s evs) ∧
    (runEvents s evs).emitted.count EmittedEvent.connecting =
      s.emitted.count EmittedEvent.connecting := by
  induction evs with
  | nil => intro s h; simpa [runEvents] using h
  | cons e evs ih =>
      intro s h
      obtain ⟨hq, hcount⟩ := quiescent_step s e h
      obtain ⟨hq', hcount'⟩ := ih (step s e) hq
      exact ⟨by simpa [runEvents] using hq', by simpa [runEvents] using hcount'.trans hcount⟩

/-- C4: after `close()` has been invoked, no subsequent sequence of modelled
steps (timer firings, connect segments, ready resolutions,
`handleConnectionLost`, further closes) ever leaves the `DISCONNECTED` state
— in particular no transition to `CONNECTING`, `RECONNECTING` or `CONNECTED`
— the count of emitted `connecting` events never grows, and every subsequent
`ensureConnected()` resolves to false. -/
theorem post_close_quiescence (s₀ : ConnMgr) (evs : List ConnEvent)
    (factoryOk readyOk : Bool) (j : ℚ) :
    (runEvents (ConnMgr.close s₀) evs).state = ConnectionState.DISCONNECTED ∧
    (runEvents (ConnMgr.close s₀) evs).emitted.count EmittedEvent.connecting =
      (ConnMgr.close s₀).emitted.count EmittedEvent.connecting ∧
    (ensureConnected factoryOk readyOk j (runEvents (ConnMgr.close s₀) evs)).1 = false := by
  obtain ⟨hq, hcount⟩ := runEvents_quiescent evs (ConnMgr.close s₀) (close_closedQuiescent s₀)
  obtain ⟨h1, h2, h3, h4, h5⟩ := hq
  refine ⟨h2, hcount, ?_⟩
  simp [ensureConnected, h1, h2]

/-! ### C1 — call-count conservation -/

@[simp] theorem recordSuccess_failedCalls (l : Nat) (m : Metrics) :
    (recordSuccess l m).failedCalls = m.failedCalls := rfl

@[simp] theorem recordSuccess_totalCalls (l : Nat) (m : Metrics) :
    (recordSuccess l m).totalCalls = m.totalCalls := rfl

theorem validateKey_of_colon {s : String} (h : (':' : Char) ∈ s.data) :
    validateKey s = true := by
  have hall : s.data.all Char.isWhitespace = false := by
    cases hcase : s.data.all Char.isWhitespace
    · rfl
    · exact absurd (List.all_eq_true.mp hcase ':' h) (by decide)
  simp [validateKey, hall]

theorem string_append_data (a b : String) : (a ++ b).data = a.data ++ b.data := rfl

theorem colon_mem_append (m X : String) : (':' : Char) ∈ (m ++ ":" ++ X).data := by
  rw [string_append_data, string_append_data]
  have h1 : (":" : String).data = [':'] := rfl
  rw [h1]
  simp

theorem colon_mem_single {X : String} (m : String) (hx : (':' : Char) ∈ X.data) :
    (':' : Char) ∈ (m ++ X).data := by
  rw [string_append_data]
  exact List.mem_append_right _ hx

/-- Every key produced by `generateCacheKey` contains the `:` separator, so it
always passes the cache validation. -/
theorem generateCacheKey_valid (m : String) (r : JsValue) :
    validateKey (generateCacheKey m r) = true := by
  apply validateKey_of_colon
  cases r with
  | nullV => exact colon_mem_single m (by decide)
  | undefinedV => exact colon_mem_single m (by decide)
  | str s => exact colon_mem_append m s
  | num n => exact colon_mem_append m (toString n)
  | boolV b => cases b <;> exact colon_mem_single m (by decide)
  | other typeTag => exact colon_mem_append m typeTag
  | obj fields =>
      simp only [generateCacheKey]
      split
      · exact colon_mem_append m _
      · exact colon_mem_append m _

theorem executeCallAttempt_counts {α : Type} (cfg : CallConfig) (key : String)
    (useCache : Bool) (o : AttemptOutcome α) (st : CallState α)
    (hk : validateKey key = true) :
    (executeCallAttempt cfg key useCache o st).2.metrics.successfulCalls =
      st.metrics.successfulCalls +
        attemptSuccessCount (executeCallAttempt cfg key useCache o st).1 ∧
    (executeCallAttempt cfg key useCache o st).2.metrics.failedCalls =
      st.metrics.failedCalls ∧
    (executeCallAttempt cfg key useCache o st).2.metrics.totalCalls =
      st.metrics.totalCalls := by
  have hget : cacheGet key st.cache = .ok (cacheGetCore key st.cache) := by
    simp [cacheGet, hk]
  cases o with
  | unavailable =>
      cases useCache with
      | false => simp [executeCallAttempt, handleServiceUnavailable, attemptSuccessCount]
      | true =>
          rcases hg : cacheGetCore key st.cache with ⟨ov, c'⟩
          rw [hg] at hget
          cases ov <;>
            simp [executeCallAttempt, handleServiceUnavailable, hget,
              recordCacheHit, recordCacheMiss, attemptSuccessCount]
  | noClient => simp [executeCallAttempt, attemptSuccessCount]
  | ok resp lat =>
      have hset : cacheSet st.now key resp none
          { st with metrics := recordSuccess lat st.metrics }.cache =
          .ok (cacheSetCore st.now key resp none
            { st with metrics := recordSuccess lat st.metrics }.cache) := by
        simp [cacheSet, hk]
      cases useCache <;> simp [executeCallAttempt, hset, attemptSuccessCount]
  | err e => simp [executeCallAttempt, attemptSuccessCount]

theorem handleRetryAttempt_counts {α : Type} (cfg : CallConfig) (attempt : Nat)
    (e : GrpcError) (maxAttempts : Nat) (st : CallState α) :
    (handleRetryAttempt cfg attempt e maxAttempts st).2.metrics.successfulCalls =
      st.metrics.successfulCalls ∧
    (handleRetryAttempt cfg attempt e maxAttempts st).2.metrics.failedCalls =
      st.metrics.failedCalls ∧
    (handleRetryAttempt cfg attempt e maxAttempts st).2.metrics.totalCalls =
      st.metrics.totalCalls := by
  unfold handleRetryAttempt
  split_ifs <;> simp [recordRetry]

theorem callLoop_counts {α : Type} (cfg : CallConfig) (key : String) (useCache : Bool)
    (script : Nat → AttemptOutcome α) (maxA : Nat) (hk : validateKey key = true) :
    ∀ (fuel attempt : Nat) (le : Option GrpcError) (st : CallState α),
      (callLoop cfg key useCache script maxA fuel attempt le st).2.metrics.successfulCalls =
        st.metrics.successfulCalls +
          exitSuccessCount (callLoop cfg key useCache script maxA fuel attempt le st).1 ∧
      (callLoop cfg key useCache script maxA fuel attempt le st).2.metrics.failedCalls =
        st.metrics.failedCalls ∧
      (callLoop cfg key useCache script maxA fuel attempt le st).2.metrics.totalCalls =
        st.metrics.totalCalls := by
  intro fuel
  induction fuel with
  | zero => intro attempt le st; simp [callLoop, exitSuccessCount]
  | succ fuel ih =>
      intro attempt le st
      have hstep : callLoop cfg key useCache script maxA (fuel + 1) attempt le st =
          match executeCallAttempt cfg key useCache (script attempt) st with
          | (.ok (a, fromCache), st₁) => (.returned a fromCache, st₁)
          | (.error e, st₁) =>
              match handleRetryAttempt cfg attempt e maxA st₁ with
              | (true, st₂) =>
                  callLoop cfg key useCache script maxA fuel (attempt + 1) (some e) st₂
              | (false, st₂) => (.failed (some e), st₂) := rfl
      rcases hex : executeCallAttempt cfg key useCache (script attempt) st with ⟨exr, st₁⟩
      have hec := executeCallAttempt_counts cfg key useCache (script attempt) st hk
      rw [hex] at hec
      cases exr with
      | ok p =>
          rcases p with ⟨a, fromCache⟩
          have hbranch : callLoop cfg key useCache script maxA (fuel + 1) attempt le st =
              (.returned a fromCache, st₁) := by rw [hstep, hex]
          rw [hbranch]
          cases fromCache <;>
            simp_all [exitSuccessCount, attemptSuccessCount]
      | error e =>
          rcases hr : handleRetryAttempt cfg attempt e maxA st₁ with ⟨should, st₂⟩
          have hrc := handleRetryAttempt_counts cfg attempt e maxA st₁
          rw [hr] at hrc
          have hbranch : callLoop cfg key useCache script maxA (fuel + 1) attempt le st =
              (match handleRetryAttempt cfg attempt e maxA st₁ with
               | (true, st₂) =>
                   callLoop cfg key useCache script maxA fuel (attempt + 1) (some e) st₂
               | (false, st₂) => (.failed (some e), st₂)) := by rw [hstep, hex]
          rw [hbranch, hr]
          cases should with
          | false => simp_all [exitSuccessCount, attemptSuccessCount]
          | true =>
              have hih := ih (attempt + 1) (some e) st₂
              simp_all [attemptSuccessCount]

theorem tryFallbackCache_counts {α : Type} (key : String) (useCache : Bool)
    (st : CallState α) :
    (tryFallbackCache key useCache st).2.metrics.successfulCalls =
      st.metrics.successfulCalls ∧
    (tryFallbackCache key useCache st).2.metrics.failedCalls =
      st.metrics.failedCalls ∧
    (tryFallbackCache key useCache st).2.metrics.totalCalls =
      st.metrics.totalCalls := by
  cases useCache with
  | false => simp [tryFallbackCache]
  | true =>
      cases hcg : cacheGet key st.cache with
      | error msg => simp [tryFallbackCache, hcg]
      | ok p =>
          rcases p with ⟨ov, c'⟩
          cases ov <;> simp [tryFallbackCache, hcg, recordCacheHit, recordCacheMiss]

theorem callConclude_counts {α : Type} (key : String) (useCache : Bool)
    (out : LoopExit α × CallState α) :
    (callConclude key useCache out).2.metrics.successfulCalls +
      (callConclude key useCache out).2.metrics.failedCalls +
      resultUnavailableCachedCount (callConclude key useCache out).1 =
      out.2.metrics.successfulCalls + out.2.metrics.failedCalls +
        (1 - exitSuccessCount out.1) ∧
    (callConclude key useCache out).2.metrics.totalCalls =
      out.2.metrics.totalCalls := by
  rcases out with ⟨ex, st'⟩
  cases ex with
  | returned a fromCache =>
      cases fromCache <;>
        simp [callConclude, resultUnavailableCachedCount, exitSuccessCount]
  | failed le =>
      have hfc := tryFallbackCache_counts key useCache
        { st' with metrics := recordFailure st'.metrics }
      rcases hget : tryFallbackCache key useCache
          { st' with metrics := recordFailure st'.metrics } with ⟨res, st₂⟩
      rw [hget] at hfc
      cases res with
      | error e =>
          simp_all [callConclude, hget, resultUnavailableCachedCount, exitSuccessCount,
            recordFailure]
          omega
      | ok ov =>
          cases ov <;>
            simp_all [callConclude, hget, resultUnavailableCachedCount, exitSuccessCount,
              recordFailure] <;>
          omega

theorem exitSuccessCount_le_one {α : Type} (ex : LoopExit α) : exitSuccessCount ex ≤ 1 := by
  cases ex with
  | returned a fromCache => cases fromCache <;> simp [exitSuccessCount]
  | failed e => simp [exitSuccessCount]

theorem callBody_counts {α : Type} (cfg : CallConfig) (key : String) (useCache : Bool)
    (script : Nat → AttemptOutcome α) (maxA : Nat) (st₀ : CallState α)
    (hk : validateKey key = true) :
    (callConclude key useCache
        (callLoop cfg key useCache script maxA maxA 0 none st₀)).2.metrics.totalCalls =
      st₀.metrics.totalCalls ∧
    (callConclude key useCache
        (callLoop cfg key useCache script maxA maxA 0 none st₀)).2.metrics.successfulCalls +
      (callConclude key useCache
        (callLoop cfg key useCache script maxA maxA 0 none st₀)).2.metrics.failedCalls +
      resultUnavailableCachedCount (callConclude key useCache
        (callLoop cfg key useCache script maxA maxA 0 none st₀)).1 =
      st₀.metrics.successfulCalls + st₀.metrics.failedCalls + 1 := by
  have hlc := callLoop_counts cfg key useCache script maxA hk maxA 0 none st₀
  have hcc := callConclude_counts key useCache
    (callLoop cfg key useCache script maxA maxA 0 none st₀)
  have hesc := exitSuccessCount_le_one
    (callLoop cfg key useCache script maxA maxA 0 none st₀).1
  constructor
  · rw [hcc.2, hlc.2.2]
  · rcases hlc with ⟨h1, h2, _⟩
    rw [hcc.1, h1, h2]
    omega

theorem call_counts {α : Type} (cfg : CallConfig) (sp : CallSpec α) (st : CallState α)
    (hk : validateKey (effectiveCacheKey sp) = true) :
    (call cfg sp st).2.metrics.totalCalls = st.metrics.totalCalls + 1 ∧
    (call cfg sp st).2.metrics.successfulCalls + (call cfg sp st).2.metrics.failedCalls +
      resultUnavailableCachedCount (call cfg sp st).1 =
      st.metrics.successfulCalls + st.metrics.failedCalls + 1 :=
  callBody_counts cfg (effectiveCacheKey sp)
    (cfg.enableFallbackCache && !sp.options.skipCache) sp.script
    (if sp.options.skipRetry then 1 else cfg.retryCount + 1)
    { st with metrics := recordCallStart st.metrics } hk

theorem runCalls_counts {α : Type} (cfg : CallConfig) :
    ∀ (specs : List (CallSpec α)) (st : CallState α),
      (∀ sp ∈ specs, validateKey (effectiveCacheKey sp) = true) →
      (runCalls cfg specs st).2.metrics.successfulCalls +
        (runCalls cfg specs st).2.metrics.failedCalls +
        unavailableCachedCount (runCalls cfg specs st).1 +
        st.metrics.totalCalls =
      st.metrics.successfulCalls + st.metrics.failedCalls +
        (runCalls cfg specs st).2.metrics.totalCalls := by
  intro specs
  induction specs with
  | nil => intro st _; simp [runCalls, unavailableCachedCount]
  | cons sp rest ih =>
      intro st hks
      have hc := call_counts cfg sp st (hks sp (List.mem_cons_self sp rest))
      rcases hcall : call cfg sp st with ⟨r, st'⟩
      rw [hcall] at hc
      have hrest := ih st' (fun sq hq => hks sq (List.mem_cons_of_mem sp hq))
      rcases hrun : runCalls cfg rest st' with ⟨rs, st''⟩
      rw [hrun] at hrest
      have hstep : runCalls cfg (sp :: rest) st = (r :: rs, st'') := by
        simp [runCalls, hcall, hrun]
      rw [hstep]
      have hcount : unavailableCachedCount (r :: rs) =
          unavailableCachedCount rs + resultUnavailableCachedCount r := by
        cases r <;> simp [unavailableCachedCount, resultUnavailableCachedCount,
          List.countP_cons]
      simp only [hcount] at *
      omega

/-- C1 counterexample: a successful cached call followed by a call served from
the cache on the service-unavailable path leaves
`successfulCalls + failedCalls = 1 ≠ 2 = totalCalls` — the unavailable-path
cache hit contributes to neither counter. -/
theorem call_conservation_counterexample :
    ¬ ((runCalls cfgCache specsUnavailableCached (initCallState Nat)).2.metrics.successfulCalls +
        (runCalls cfgCache specsUnavailableCached (initCallState Nat)).2.metrics.failedCalls =
        (runCalls cfgCache specsUnavailableCached (initCallState Nat)).2.metrics.totalCalls) := by
  decide

/-- C1 amended: for every sequence of terminated calls in which every
user-supplied `options.cacheKey` is either empty (so the generated key is
used) or passes the cache validation — keys produced by `generateCacheKey`
always do — the metrics satisfy
`successfulCalls + failedCalls + u = totalCalls`, where `u` is the number of
calls that returned a cached value on the service-unavailable path; such a
call contributes to neither `successfulCalls` nor `failedCalls`, so the
equality of the original claim holds exactly when no call took that path.
The valid-key proviso is necessary: with caching enabled and a non-empty
whitespace-only user `cacheKey`, `fallbackCache.set` throws from `validateKey`
after `recordSuccess` has already run and `tryFallbackCache` then rethrows
after `recordFailure`, so such a call records both a success and a failure
and `successfulCalls + failedCalls` can exceed `totalCalls`. -/
theorem call_count_conservation {α : Type} (cfg : CallConfig)
    (specs : List (CallSpec α))
    (huser : ∀ sp ∈ specs, ∀ k, sp.options.cacheKey = some k →
      k.length = 0 ∨ validateKey k = true) :
    (runCalls cfg specs (initCallState α)).2.metrics.successfulCalls +
      (runCalls cfg specs (initCallState α)).2.metrics.failedCalls +
      unavailableCachedCount (runCalls cfg specs (initCallState α)).1 =
      (runCalls cfg specs (initCallState α)).2.metrics.totalCalls := by
  have hks : ∀ sp ∈ specs, validateKey (effectiveCacheKey sp) = true := by
    intro sp hsp
    unfold effectiveCacheKey
    cases hck : sp.options.cacheKey with
    | none => exact generateCacheKey_valid sp.methodName sp.request
    | some k =>
        by_cases hlen : k.length = 0
        · simpa [hlen] using generateCacheKey_valid sp.methodName sp.request
        · rcases huser sp hsp k hck with h0 | hv
          · exact absurd h0 hlen
          · simpa [hlen] using hv
  have h := runCalls_counts cfg specs (initCallState α) hks
  simpa [initCallState, initMetrics] using h

/-- Witness for `call_count_conservation` at the two-call scenario (no user
cache keys): `successfulCalls + failedCalls + u = 1 + 0 + 1 = 2 = totalCalls`. -/
theorem call_count_conservation_witness :
    (runCalls cfgCache specsUnavailableCached (initCallState Nat)).2.metrics.successfulCalls +
      (runCalls cfgCache specsUnavailableCached (initCallState Nat)).2.metrics.failedCalls +
      unavailableCachedCount (runCalls cfgCache specsUnavailableCached (initCallState Nat)).1 =
      (runCalls cfgCache specsUnavailableCached (initCallState Nat)).2.metrics.totalCalls := by
  apply call_count_conservation
  intro sp hsp k hkey
  rcases List.mem_cons.mp hsp with rfl | hsp'
  · simp [defaultCallOptions] at hkey
  · rcases List.mem_cons.mp hsp' with rfl | hsp''
    · simp [defaultCallOptions] at hkey
    · simp at hsp''

/-! ### C6 — cache-key determinism and format -/

theorem charListLeb_total : ∀ (a b : List Char),
    charListLeb a b = true ∨ charListLeb b a = true
  | [], _ => Or.inl rfl
  | _ :: _, [] => Or.inr rfl
  | a :: as, b :: bs => by
      rcases Nat.lt_trichotomy a.toNat b.toNat with h | h | h
      · left; simp [charListLeb, h]
      · have h' : ¬ a.toNat < b.toNat := by omega
        have h'' : ¬ b.toNat < a.toNat := by omega
        simpa [charListLeb, h', h''] using charListLeb_total as bs
      · right; simp [charListLeb, h]

theorem charListLeb_cons (a b : Char) (as bs : List Char) :
    charListLeb (a :: as) (b :: bs) =
      (if a.toNat < b.toNat then true
       else if b.toNat < a.toNat then false
       else charListLeb as bs) := rfl

theorem charListLeb_trans : ∀ (a b c : List Char),
    charListLeb a b = true → charListLeb b c = true → charListLeb a c = true
  | [], _, _ => fun _ _ => rfl
  | _ :: _, [], _ => by intro h _; simp [charListLeb] at h
  | _ :: _, _ :: _, [] => by intro _ h; simp [charListLeb] at h
  | a :: as, b :: bs, c :: cs => by
      intro h₁ h₂
      rw [charListLeb_cons] at h₁ h₂ ⊢
      rcases Nat.lt_trichotomy a.toNat b.toNat with hab | hab | hab
      · rcases Nat.lt_trichotomy b.toNat c.toNat with hbc | hbc | hbc
        · rw [if_pos (by omega)]
        · rw [if_pos (by omega)]
        · rw [if_neg (by omega), if_pos (by omega)] at h₂
          exact absurd h₂ (by simp)
      · rcases Nat.lt_trichotomy b.toNat c.toNat with hbc | hbc | hbc
        · rw [if_pos (by omega)]
        · rw [if_neg (by omega), if_neg (by omega)]
          rw [if_neg (by omega), if_neg (by omega)] at h₁
          rw [if_neg (by omega), if_neg (by omega)] at h₂
          exact charListLeb_trans as bs cs h₁ h₂
        · rw [if_neg (by omega), if_pos (by omega)] at h₂
          exact absurd h₂ (by simp)
      · rw [if_neg (by omega), if_pos (by omega)] at h₁
        exact absurd h₁ (by simp)

theorem charListLeb_antisymm : ∀ (a b : List Char),
    charListLeb a b = true → charListLeb b a = true → a = b
  | [], [] => fun _ _ => rfl
  | [], _ :: _ => by intro _ h; simp [charListLeb] at h
  | _ :: _, [] => by intro h _; simp [charListLeb] at h
  | a :: as, b :: bs => by
      intro h₁ h₂
      rw [charListLeb_cons] at h₁ h₂
      rcases Nat.lt_trichotomy a.toNat b.toNat with hab | hab | hab
      · rw [if_neg (by omega), if_pos (by omega)] at h₂
        exact absurd h₂ (by simp)
      · rw [if_neg (by omega), if_neg (by omega)] at h₁
        rw [if_neg (by omega), if_neg (by omega)] at h₂
        have hchar : a = b :=
          Char.eq_of_val_eq (UInt32.ext (show a.toNat = b.toNat from hab))
        rw [hchar, charListLeb_antisymm as bs h₁ h₂]
      · rw [if_neg (by omega), if_pos (by omega)] at h₁
        exact absurd h₁ (by simp)

theorem string_eq_of_data_eq {s t : String} (h : s.data = t.data) : s = t := by
  cases s; cases t; simp_all

instance : IsTotal String jsKeyOrder :=
  ⟨fun a b => charListLeb_total a.data b.data⟩

instance : IsTrans String jsKeyOrder :=
  ⟨fun a b c => charListLeb_trans a.data b.data c.data⟩

instance : IsAntisymm String jsKeyOrder :=
  ⟨fun a b h₁ h₂ => string_eq_of_data_eq (charListLeb_antisymm a.data b.data h₁ h₂)⟩

theorem lookup_eq_some_iff_mem {l : List (String × Prim)}
    (hn : (l.map Prod.fst).Nodup) {k : String} {v : Prim} :
    List.lookup k l = some v ↔ (k, v) ∈ l := by
  induction l with
  | nil => simp
  | cons p t ih =>
      rcases p with ⟨k', v'⟩
      have hn₂ : (k' :: t.map Prod.fst).Nodup := by simpa using hn
      rcases List.nodup_cons.mp hn₂ with ⟨hk', hn'⟩
      by_cases h : k = k'
      · subst h
        constructor
        · intro hl
          have hv : v' = v := by simpa [List.lookup] using hl
          rw [← hv]
          exact List.mem_cons_self _ _
        · intro hmem
          rcases List.mem_cons.mp hmem with heq | hmem'
          · have hv : v = v' := (Prod.ext_iff.mp heq).2
            simp [List.lookup, hv]
          · exact absurd (by simpa using List.mem_map_of_mem Prod.fst hmem') hk'
      · have hb : (k == k') = false := by simp [h]
        have hlk : List.lookup k ((k', v') :: t) = List.lookup k t := by
          simp [List.lookup, hb]
        rw [hlk, ih hn']
        constructor
        · exact fun hmem => List.mem_cons_of_mem _ hmem
        · intro hmem
          rcases List.mem_cons.mp hmem with heq | hmem'
          · exact absurd (congrArg Prod.fst heq) h
          · exact hmem'

theorem lookup_eq_of_perm {x y : List (String × Prim)}
    (hx : (x.map Prod.fst).Nodup) (hp : x.Perm y) (k : String) :
    List.lookup k x = List.lookup k y := by
  have hy : (y.map Prod.fst).Nodup := ((hp.map Prod.fst).nodup_iff).mp hx
  cases hcase : List.lookup k x with
  | some v =>
      have hmem : (k, v) ∈ x := (lookup_eq_some_iff_mem hx).mp hcase
      exact ((lookup_eq_some_iff_mem hy).mpr (hp.mem_iff.mp hmem)).symm
  | none =>
      cases hcase' : List.lookup k y with
      | none => rfl
      | some v =>
          have hmem : (k, v) ∈ x := hp.mem_iff.mpr ((lookup_eq_some_iff_mem hy).mp hcase')
          rw [(lookup_eq_some_iff_mem hx).mpr hmem] at hcase
          exact absurd hcase (by simp)

/-- C6: `generateCacheKey` is deterministic on flat objects with at most 10
keys of primitive values — two objects with identical key–value pairs in any
insertion order produce the same key, which lists the `k=v` pairs with keys
sorted ascending joined by `&` after `method` and a colon; in particular
`generateCacheKey "M" {a:1, b:2} = generateCacheKey "M" {b:2, a:1} =
"M:a=1&b=2"`. -/
theorem cacheKey_deterministic (m : String) (x y : List (String × Prim))
    (hx : (x.map Prod.fst).Nodup) (hperm : x.Perm y) (hlen : x.length ≤ 10) :
    generateCacheKey m (.obj x) = generateCacheKey m (.obj y) ∧
    generateCacheKey "M" (.obj [("a", .num 1), ("b", .num 2)]) = "M:a=1&b=2" ∧
    generateCacheKey "M" (.obj [("b", .num 2), ("a", .num 1)]) = "M:a=1&b=2" := by
  refine ⟨?_, by decide, by decide⟩
  have hkeys : (x.map Prod.fst).Perm (y.map Prod.fst) := hperm.map Prod.fst
  have hsorted : List.insertionSort jsKeyOrder (x.map Prod.fst) =
      List.insertionSort jsKeyOrder (y.map Prod.fst) := by
    refine List.eq_of_perm_of_sorted ?_ (List.sorted_insertionSort jsKeyOrder _)
      (List.sorted_insertionSort jsKeyOrder _)
    exact (List.perm_insertionSort jsKeyOrder _).trans
      (hkeys.trans (List.perm_insertionSort jsKeyOrder _).symm)
  have hget : ∀ k, objGet x k = objGet y k := by
    intro k
    unfold objGet
    rw [lookup_eq_of_perm hx hperm k]
  have hlenx : (List.insertionSort jsKeyOrder (x.map Prod.fst)).length = x.length := by
    rw [(List.perm_insertionSort jsKeyOrder _).length_eq, List.length_map]
  have hleny : (List.insertionSort jsKeyOrder (y.map Prod.fst)).length = y.length := by
    rw [(List.perm_insertionSort jsKeyOrder _).length_eq, List.length_map]
  have hylen : y.length ≤ 10 := hperm.length_eq ▸ hlen
  simp only [generateCacheKey, hsorted, hlenx, hleny, hlen, hylen, if_pos]
  have hfun : (fun k => k ++ "=" ++ primString (objGet x k)) =
      (fun k => k ++ "=" ++ primString (objGet y k)) :=
    funext fun k => by rw [hget k]
  rw [hfun]

/-- Witness for `cacheKey_deterministic` at the S6 inputs: the two insertion
orders of `{a:1, b:2}` yield the same cache key. -/
theorem cacheKey_deterministic_witness :
    generateCacheKey "M" (.obj [("a", .num 1), ("b", .num 2)]) =
      generateCacheKey "M" (.obj [("b", .num 2), ("a", .num 1)]) :=
  (cacheKey_deterministic "M" [("a", .num 1), ("b", .num 2)]
    [("b", .num 2), ("a", .num 1)] (by decide) (by decide) (by decide)).1

end GrpcResilient
